import Mathlib

/-!
# Verification of the `command` subcommand-dispatch package

A shallow embedding of the `Path`-based registry/dispatch core of the
`command` Go package (`Path`, `Path.Add`, `Path.Run`, `CmdFunc`), together
with a model of the external `flag.FlagSet` collaborator that is faithful
on the observations the dispatcher uses: which flags were explicitly set
(`Visit` over `actual`), the leftover positional arguments (`Args`), and
parse errors.

Modelling notes (all divergences from Go are recorded here):
* Go maps are embedded as association lists with unique keys maintained by
  `Path.Add`; dispatch reads the map only through lookup of a single key.
  Go's map iteration order is unspecified; where the code iterates over a
  map (`for k := range missingFlags`) the embedding fixes the order to the
  declaration order of the required-flags list with duplicates removed
  (one admissible order for the unordered Go map).
* Go's `flag.FlagSet` is mutable state reached through a pointer stored in
  each `CmdCont`; the embedding passes the state explicitly, so `Path.Run`
  returns the updated `Path` alongside the Go result pair
  `(*CmdCont, error)`.
* Flag values are kept as strings; typed value coercion is a non-goal of
  the package (only `strconv.ParseBool` validation of explicit boolean
  values is kept, since it can produce a parse error). A flag declaration
  records its name, whether it is boolean (boolean flags may omit
  `=value`), and its default value string.
* Go `error` values are embedded as the inductive `Err`; a command's
  `Run` returns `Option Err` (`none` = Go `nil`).
-/

namespace Command

/-- An `Err` models a Go `error` value as the dispatcher distinguishes
them: the two sentinel errors of the package, a flag-parse error carrying
the adapter's message, the `fmt.Errorf("Required flags not set: %q\n", keys)`
error carrying the key list in the order it was produced, and an opaque
error produced by a command's run operation. -/
inductive Err where
  | cmdUsage
  | noSuchCmd
  | parseErr (msg : String)
  | requiredFlagsNotSet (keys : List String)
  | userErr (msg : String)
deriving DecidableEq, Repr

/-- `ErrCmdUsage = errors.New("Invalid command usage.")`. -/
def ErrCmdUsage : Err := Err.cmdUsage

/-- `ErrNoSuchCmd = errors.New("No such command.")`. -/
def ErrNoSuchCmd : Err := Err.noSuchCmd

/-- One flag declaration on a `flag.FlagSet`: name, whether the flag is
boolean (may be supplied without a value), and its default value. -/
structure FlagDecl where
  name : String
  isBool : Bool
  defVal : String
deriving DecidableEq, Repr

/-- The observable state of a `flag.FlagSet`: the declared flags
(`formal`), the flags explicitly set by parsing so far (`actual`, as
name/value pairs — Go's `actual` map, reported by `Visit`), and the
leftover arguments of the most recent `Parse` (`args`, reported by
`Args()`; empty before the first `Parse`). -/
structure FlagSet where
  formal : List FlagDecl
  actual : List (String × String)
  argsLeft : List String
deriving DecidableEq, Repr

/-- `flag.NewFlagSet` followed by declaring `ds`: no flag set yet, no
leftover arguments. -/
def FlagSet.init (ds : List FlagDecl) : FlagSet :=
  { formal := ds, actual := [], argsLeft := [] }

/-- Record that flag `n` was explicitly set to `v` (Go `FlagSet.Set`:
stores the value and adds the flag to the `actual` map). -/
def FlagSet.setFlag (fs : FlagSet) (n v : String) : FlagSet :=
  { fs with actual := (n, v) :: fs.actual.filter (fun a => a.1 ≠ n) }

/-- Whether `Visit` reports flag `n` as explicitly set. -/
def FlagSet.isSet (fs : FlagSet) (n : String) : Bool :=
  fs.actual.any (fun a => a.1 = n)

/-- Split a flag body at the first `=`: `splitEq "v=x".data = ("v".data, some "x".data)`,
`splitEq "v".data = ("v".data, none)` (Go's `strings.SplitN(name, "=", 2)` step
inside `parseOne`). -/
def splitEq : List Char → List Char × Option (List Char)
  | [] => ([], none)
  | c :: rest =>
    if c = '=' then ([], some rest)
    else
      let pr := splitEq rest
      (c :: pr.1, pr.2)

/-- Strip the second leading dash of a flag token body, as `parseOne` does
for `--name` tokens. -/
def dropSecondDash : List Char → List Char
  | '-' :: r => r
  | l => l

/-- The values `strconv.ParseBool` accepts. -/
def boolOk (v : String) : Bool :=
  v = "1" ∨ v = "t" ∨ v = "T" ∨ v = "true" ∨ v = "TRUE" ∨ v = "True" ∨
  v = "0" ∨ v = "f" ∨ v = "F" ∨ v = "false" ∨ v = "FALSE" ∨ v = "False"

/-- What `parseOne` decides to do with one flag token whose name body
(after the dashes) is `nb`: fail (`keepTok` = the token was not consumed,
as for bad syntax), set a flag and continue, or consume the next token as
the value of a non-boolean flag. -/
inductive TokAct where
  | err (keepTok : Bool) (msg : String)
  | setv (name v : String)
  | needArg (name : String)
deriving DecidableEq, Repr

/-- The per-token decision of Go's `FlagSet.parseOne`, given the token `s`
and its name body `nb` (the characters after the leading dashes). -/
def tokAct (fs : FlagSet) (s : String) (nb : List Char) : TokAct :=
  match nb with
  | [] => TokAct.err true ("bad flag syntax: " ++ s)
  | c :: _ =>
    if c = '-' ∨ c = '=' then TokAct.err true ("bad flag syntax: " ++ s)
    else
      let pr := splitEq nb
      let name := String.mk pr.1
      match fs.formal.find? (fun d => d.name = name) with
      | none =>
        if name = "help" ∨ name = "h" then TokAct.err false "flag: help requested"
        else TokAct.err false ("flag provided but not defined: -" ++ name)
      | some d =>
        if d.isBool then
          match pr.2 with
          | none => TokAct.setv name "true"
          | some vc =>
            if boolOk (String.mk vc) then TokAct.setv name (String.mk vc)
            else
              TokAct.err false
                ("invalid boolean value " ++ String.mk vc ++ " for -" ++ name)
        else
          match pr.2 with
          | some vc => TokAct.setv name (String.mk vc)
          | none => TokAct.needArg name

/-- Go's `FlagSet.Parse` loop (`ContinueOnError`): process leading flag
tokens, stop at the first non-flag token or after a lone `--`, record
explicitly set flags in `actual` and the remaining tokens in `argsLeft`;
on error, return the adapter's message together with the state reached so
far. -/
def FlagSet.parseLoop (fs : FlagSet) : List String → FlagSet × Option String
  | [] => ({ fs with argsLeft := [] }, none)
  | s :: rest =>
    if s.length < 2 then ({ fs with argsLeft := s :: rest }, none)
    else
      match s.data with
      | '-' :: body =>
        if body = ['-'] then ({ fs with argsLeft := rest }, none)
        else
          match tokAct fs s (dropSecondDash body) with
          | TokAct.err keep msg =>
            ({ fs with argsLeft := if keep then s :: rest else rest }, some msg)
          | TokAct.setv n v => (fs.setFlag n v).parseLoop rest
          | TokAct.needArg n =>
            match rest with
            | [] => ({ fs with argsLeft := [] }, some ("flag needs an argument: -" ++ n))
            | v :: rest2 => (fs.setFlag n v).parseLoop rest2
      | _ => ({ fs with argsLeft := s :: rest }, none)

/-- The flag name a token would set, if it is a flag token: used to state
which flags are "mentioned on the command line". -/
def flagNameOf (s : String) : Option String :=
  if s.length < 2 then none
  else
    match s.data with
    | '-' :: body =>
      if body = ['-'] then none
      else some (String.mk (splitEq (dropSecondDash body)).1)
    | _ => none

/-- A command: the flags its `Flags` hook declares on the entry's
`flag.FlagSet`, and its `Run` operation over positional arguments. -/
structure Cmd where
  Flags : List FlagDecl
  Run : List String → Option Err

/-- `CmdFunc`: a function as a `Cmd` — declares no flags, `Run` forwards
the argument list to the wrapped function. -/
def CmdFunc (f : List String → Option Err) : Cmd :=
  { Flags := [], Run := fun args => f args }

/-- `CmdCont`: a registry entry binding name, description, required-flag
names, the command, and the entry's own `flag.FlagSet`. -/
structure CmdCont where
  Cmd : Cmd
  Name : String
  Desc : String
  RequiredFlags : List String
  Flags : FlagSet

/-- `Path`: the registry, a map from command name to entry (association
list with unique keys, maintained by `Path.Add`). -/
structure Path where
  entries : List (String × CmdCont)

/-- `NewPath()`: the empty registry. -/
def NewPath : Path := { entries := [] }

/-- Go map indexing `p.entries[name]`. -/
def Path.lookup (p : Path) (name : String) : Option CmdCont :=
  (p.entries.find? (fun e => e.1 = name)).map (fun e => e.2)

/-- Go map update `p.entries[name] = c` for a key already present:
replace the entry stored under `name`. -/
def setEntry : List (String × CmdCont) → String → CmdCont → List (String × CmdCont)
  | [], _, _ => []
  | e :: es, n, c => if e.1 = n then (n, c) :: es else e :: setEntry es n c

/-- `Path.Add`: build the entry, let the command declare its flags on a
fresh `flag.FlagSet`, store the entry under `name` (silently overwriting
any existing entry), and return it. -/
def Path.Add (p : Path) (name description : String) (command : Cmd)
    (requiredFlags : List String) : Path × CmdCont :=
  let c : CmdCont :=
    { Cmd := command
      Name := name
      Desc := description
      RequiredFlags := requiredFlags
      Flags := FlagSet.init command.Flags }
  ({ entries := (name, c) :: p.entries.filter (fun e => e.1 ≠ name) }, c)

/-- The missing-required set after validation: the entry's required flags
(as a set — duplicates removed), minus every flag `Visit` reports as
explicitly set. The order is the declaration order (one admissible
iteration order of the Go map `missingFlags`). -/
def missingOf (required : List String) (fs : FlagSet) : List String :=
  required.dedup.filter (fun n => ¬ fs.isSet n)

/-- `Path.Run`, the dispatcher: resolve `args[0]`, parse the remaining
arguments against the entry's persistent `flag.FlagSet` (only when there
are any), validate required flags, and invoke the command's run operation
on the leftover arguments. Returns the updated registry state (Go mutates
the entry's `FlagSet` in place through the stored pointer) together with
Go's `(*CmdCont, error)` result. -/
def Path.Run (p : Path) (args : List String) : Path × Option CmdCont × Option Err :=
  match args with
  | [] => (p, none, some ErrCmdUsage)
  | a0 :: rest =>
    if p.entries.length < 1 then (p, none, some ErrCmdUsage)
    else
      match p.lookup a0 with
      | none => (p, none, some ErrNoSuchCmd)
      | some cont =>
        let pr := if rest.isEmpty then (cont.Flags, none) else cont.Flags.parseLoop rest
        let cont' := { cont with Flags := pr.1 }
        let p' : Path := { entries := setEntry p.entries a0 cont' }
        match pr.2 with
        | some msg => (p', some cont', some (Err.parseErr msg))
        | none =>
          let missing := missingOf cont.RequiredFlags pr.1
          if missing.isEmpty then (p', some cont', cont.Cmd.Run pr.1.argsLeft)
          else (p', some cont', some (Err.requiredFlagsNotSet missing))

/-! ### Observations used to state the properties -/

/-- Byte-wise lexicographic comparison of character lists (the order
`sort.Strings` uses on ASCII strings). -/
def charListLe : List Char → List Char → Bool
  | [], _ => true
  | _ :: _, [] => false
  | a :: as, b :: bs =>
    if a.val < b.val then true
    else if b.val < a.val then false
    else charListLe as bs

/-- Lexicographic string order, used to state what a *sorted* list of flag
names would be. -/
def strLe (a b : String) : Bool := charListLe a.data b.data

/-- The immutable registration data of an entry: name, description,
required flags, bound command, and declared flags — everything except the
mutable `flag.FlagSet` parse state. -/
def CmdCont.decl (c : CmdCont) :
    String × String × List String × Command.Cmd × List FlagDecl :=
  (c.Name, c.Desc, c.RequiredFlags, c.Cmd, c.Flags.formal)

/-- The name-to-registration-data mapping of a registry. -/
def Path.decls (p : Path) :
    List (String × (String × String × List String × Command.Cmd × List FlagDecl)) :=
  p.entries.map (fun e => (e.1, e.2.decl))

/-! ### Concrete scenario registries (for counterexamples and witnesses) -/

/-- C2 witness scenario: one registered command `a`. -/
def oneCmdPath : Path :=
  (NewPath.Add "a" "d" { Flags := [], Run := fun _ => none } []).1

/-- C3 witness scenario: a command with a boolean flag `v` (default
`false`), registered with required flags `v`, plus an unrelated boolean
flag `w`. -/
def verPath : Path :=
  (NewPath.Add "ver" "d"
    { Flags := [⟨"v", true, "false"⟩, ⟨"w", true, "false"⟩], Run := fun _ => none }
    ["v"]).1

/-- C4 counterexample scenario: an entry whose required flags are declared
in the order `b`, `a`. -/
def reqBAPath : Path :=
  (NewPath.Add "m" "d" { Flags := [], Run := fun _ => none } ["b", "a"]).1

/-- C5 witness scenario: the `hello` command of `TestCommandFunc`, whose
run operation succeeds exactly when its first positional argument is
`world`. -/
def helloPath : Path :=
  (NewPath.Add "hello" "simple testing function"
    (CmdFunc (fun args => if args = ["world"] then none else some (Err.userErr "wrong args")))
    []).1

/-- C6 counterexample scenario: a `ship` command with a string flag `env`,
required. -/
def shipPath : Path :=
  (NewPath.Add "ship" "d" { Flags := [⟨"env", false, ""⟩], Run := fun _ => none } ["env"]).1

/-- The registry state after dispatching `["ship", "-env=prod"]` on
`shipPath`: the entry's `FlagSet` now records `env` as explicitly set. -/
def shipPath1 : Path := (shipPath.Run ["ship", "-env=prod"]).1

/-- A registry with the same registration data as `shipPath`, built
differently: a first registration of `ship` is silently overwritten by the
second. -/
def shipPathB : Path :=
  (((NewPath.Add "ship" "old"
      { Flags := [], Run := fun _ => some (Err.userErr "old") } []).1).Add
    "ship" "d" { Flags := [⟨"env", false, ""⟩], Run := fun _ => none } ["env"]).1

/-! ### Helper lemmas about the flag adapter -/

/-- Parsing never changes the declared flags of a `FlagSet`. -/
theorem parseLoop_formal (fs : FlagSet) (toks : List String) :
    ((fs.parseLoop toks).1).formal = fs.formal := by
  induction fs, toks using FlagSet.parseLoop.induct <;>
    simp_all [FlagSet.parseLoop, FlagSet.setFlag] <;>
    rw [if_neg (by omega)] <;> simp_all

/-- `setFlag` adds exactly one name to the explicitly-set set. -/
theorem isSet_setFlag (fs : FlagSet) (m v n : String) :
    (fs.setFlag m v).isSet n = true ↔ n = m ∨ fs.isSet n = true := by
  simp only [FlagSet.setFlag, FlagSet.isSet, List.any_cons, List.any_eq_true,
    List.mem_filter, Bool.or_eq_true, decide_eq_true_eq]
  constructor
  · rintro (h | ⟨a, ⟨ha, _⟩, h2⟩)
    · exact Or.inl h.symm
    · exact Or.inr ⟨a, ha, h2⟩
  · rintro (h | ⟨a, ha, h2⟩)
    · exact Or.inl h.symm
    · by_cases hm : a.1 = m
      · exact Or.inl (by rw [← h2, hm])
      · exact Or.inr ⟨a, ⟨ha, by simpa using hm⟩, h2⟩

/-- A `setv` decision sets the name spelled in the token. -/
theorem tokAct_setv_name (fs : FlagSet) (s : String) (nb : List Char) (m v : String)
    (h : tokAct fs s nb = TokAct.setv m v) : m = String.mk (splitEq nb).1 := by
  unfold tokAct at h
  cases nb with
  | nil => simp at h
  | cons c t =>
    simp only at h
    split at h
    · simp at h
    · split at h <;> (try split at h) <;> (try split at h) <;> (try split at h) <;> simp_all

/-- A `needArg` decision names the flag spelled in the token. -/
theorem tokAct_needArg_name (fs : FlagSet) (s : String) (nb : List Char) (m : String)
    (h : tokAct fs s nb = TokAct.needArg m) : m = String.mk (splitEq nb).1 := by
  unfold tokAct at h
  cases nb with
  | nil => simp at h
  | cons c t =>
    simp only at h
    split at h
    · simp at h
    · split at h <;> (try split at h) <;> (try split at h) <;> (try split at h) <;> simp_all

/-- Computation of `flagNameOf` on a well-formed flag token. -/
theorem flagNameOf_eq (s : String) (body : List Char)
    (hlen : ¬ s.length < 2) (hdata : s.data = '-' :: body) (hbody : ¬ body = ['-']) :
    flagNameOf s = some (String.mk (splitEq (dropSecondDash body)).1) := by
  simp [flagNameOf, hlen, hdata, hbody]

/-- After parsing, a flag is reported as explicitly set only if it was
already set before, or some token on the command line names it. -/
theorem parseLoop_isSet (fs : FlagSet) (toks : List String) (n : String) :
    ((fs.parseLoop toks).1).isSet n = true →
      fs.isSet n = true ∨ ∃ t ∈ toks, flagNameOf t = some n := by
  induction fs, toks using FlagSet.parseLoop.induct with
  | case1 fs =>
    intro h
    exact Or.inl (by simpa [FlagSet.parseLoop, FlagSet.isSet] using h)
  | case2 fs s rest hlen =>
    intro h
    simp only [FlagSet.parseLoop, if_pos hlen] at h
    exact Or.inl (by simpa [FlagSet.isSet] using h)
  | case3 fs s rest hlen hdata =>
    intro h
    simp only [FlagSet.parseLoop, if_neg hlen, hdata] at h
    exact Or.inl (by simpa [FlagSet.isSet] using h)
  | case4 fs s rest hlen r hdata hbody keep msg htok =>
    intro h
    simp only [FlagSet.parseLoop, if_neg hlen, hdata, if_neg hbody, htok] at h
    exact Or.inl (by simpa [FlagSet.isSet] using h)
  | case5 fs s rest hlen r hdata hbody m vv htok ih =>
    intro h
    simp only [FlagSet.parseLoop, if_neg hlen, hdata, if_neg hbody, htok] at h
    rcases ih h with hset | ⟨t, ht, hname⟩
    · rcases (isSet_setFlag fs m vv n).mp hset with hnm | hfs
      · refine Or.inr ⟨s, List.mem_cons_self s rest, ?_⟩
        rw [flagNameOf_eq s r hlen hdata hbody, ← tokAct_setv_name fs s _ m vv htok, hnm]
      · exact Or.inl hfs
    · exact Or.inr ⟨t, List.mem_cons_of_mem s ht, hname⟩
  | case6 fs s hlen r hdata hbody m htok =>
    intro h
    simp only [FlagSet.parseLoop, if_neg hlen, hdata, if_neg hbody, htok] at h
    exact Or.inl (by simpa [FlagSet.isSet] using h)
  | case7 fs s hlen r hdata hbody m htok vv rest2 ih =>
    intro h
    simp only [FlagSet.parseLoop, if_neg hlen, hdata, if_neg hbody, htok] at h
    rcases ih h with hset | ⟨t, ht, hname⟩
    · rcases (isSet_setFlag fs m vv n).mp hset with hnm | hfs
      · refine Or.inr ⟨s, List.mem_cons_self s _, ?_⟩
        rw [flagNameOf_eq s r hlen hdata hbody, ← tokAct_needArg_name fs s _ m htok, hnm]
      · exact Or.inl hfs
    · exact Or.inr ⟨t, List.mem_cons_of_mem s (List.mem_cons_of_mem vv ht), hname⟩
  | case8 fs s rest hlen hno =>
    intro h
    simp only [FlagSet.parseLoop, if_neg hlen] at h
    exact Or.inl (by simpa [FlagSet.isSet] using h)

/-! ### Helper lemmas about the dispatcher -/

/-- A successful lookup means the registry is non-empty. -/
theorem lookup_entries_ne (p : Path) (a0 : String) (cont : CmdCont)
    (h : p.lookup a0 = some cont) : ¬ p.entries.length < 1 := by
  unfold Path.lookup at h
  rcases Option.map_eq_some'.mp h with ⟨e, he, _⟩
  have hm := List.mem_of_find?_eq_some he
  cases hp : p.entries with
  | nil => rw [hp] at hm; simp at hm
  | cons a l => simp [hp]

/-- Unfolding of `Path.Run` once the first argument resolved to an entry. -/
theorem Run_matched (p : Path) (a0 : String) (rest : List String) (cont : CmdCont)
    (hlook : p.lookup a0 = some cont) :
    p.Run (a0 :: rest) =
      (let pr := if rest.isEmpty then (cont.Flags, none) else cont.Flags.parseLoop rest
       let cont' := { cont with Flags := pr.1 }
       let p' : Path := { entries := setEntry p.entries a0 cont' }
       match pr.2 with
       | some msg => (p', some cont', some (Err.parseErr msg))
       | none =>
         let missing := missingOf cont.RequiredFlags pr.1
         if missing.isEmpty then (p', some cont', cont.Cmd.Run pr.1.argsLeft)
         else (p', some cont', some (Err.requiredFlagsNotSet missing))) := by
  simp only [Path.Run]
  rw [if_neg (lookup_entries_ne p a0 cont hlook), hlook]

/-- Replacing the looked-up entry with one that has the same registration
data leaves the registration view of the map unchanged. -/
theorem setEntry_decls (a0 : String) (cont' : CmdCont) :
    ∀ (es : List (String × CmdCont)) (e0 : String × CmdCont),
      es.find? (fun e => e.1 = a0) = some e0 →
      cont'.decl = e0.2.decl →
      (setEntry es a0 cont').map (fun e => (e.1, e.2.decl))
        = es.map (fun e => (e.1, e.2.decl))
  | [], e0, hfind, _ => by simp at hfind
  | e :: es, e0, hfind, hdecl => by
    by_cases he : e.1 = a0
    · rw [List.find?_cons_of_pos _ (by simpa using he)] at hfind
      cases hfind
      simp [setEntry, if_pos he, he, hdecl]
    · rw [List.find?_cons_of_neg _ (by simpa using he)] at hfind
      simp only [setEntry, if_neg he, List.map_cons]
      rw [setEntry_decls a0 cont' es e0 hfind hdecl]

/-- The registry state `Path.Run` returns on a match: the matched entry
with its `FlagSet` replaced by the post-parse state. -/
theorem Run_fst (p : Path) (a0 : String) (rest : List String) (cont : CmdCont)
    (hlook : p.lookup a0 = some cont) :
    (p.Run (a0 :: rest)).1 =
      { entries := setEntry p.entries a0
          { cont with
            Flags := (if rest.isEmpty then (cont.Flags, none)
                      else cont.Flags.parseLoop rest).1 } } := by
  rw [Run_matched p a0 rest cont hlook]
  split <;> dsimp only <;> split <;> (try split) <;> rfl

/-- On a match, the entry component of the result is always the matched
entry (with its updated `FlagSet`), whatever the error outcome. -/
theorem Run_entry (p : Path) (a0 : String) (rest : List String) (cont : CmdCont)
    (hlook : p.lookup a0 = some cont) :
    (p.Run (a0 :: rest)).2.1 =
      some { cont with
             Flags := (if rest.isEmpty then (cont.Flags, none)
                       else cont.Flags.parseLoop rest).1 } := by
  rw [Run_matched p a0 rest cont hlook]
  split <;> dsimp only <;> split <;> (try split) <;> rfl

/-- The missing-required-flags branch of `Path.Run`, in full. -/
theorem Run_missing_branch (p : Path) (a0 : String) (rest : List String)
    (cont : CmdCont) (fs' : FlagSet)
    (hlook : p.lookup a0 = some cont)
    (hparse : (if rest.isEmpty then (cont.Flags, none)
               else cont.Flags.parseLoop rest) = (fs', none))
    (hmiss : missingOf cont.RequiredFlags fs' ≠ []) :
    p.Run (a0 :: rest) =
      ({ entries := setEntry p.entries a0 { cont with Flags := fs' } },
       some { cont with Flags := fs' },
       some (Err.requiredFlagsNotSet (missingOf cont.RequiredFlags fs'))) := by
  have hne : (missingOf cont.RequiredFlags fs').isEmpty = false := by
    cases hm : missingOf cont.RequiredFlags fs' with
    | nil => exact absurd hm hmiss
    | cons a l => rfl
  rw [Run_matched p a0 rest cont hlook, hparse]
  dsimp only
  simp [hne]

/-- Entry lists with the same registration view and pristine `FlagSet`
states are equal. -/
theorem decls_inj : ∀ (es fs : List (String × CmdCont)),
    es.map (fun e => (e.1, e.2.decl)) = fs.map (fun e => (e.1, e.2.decl)) →
    (∀ e ∈ es, e.2.Flags.actual = [] ∧ e.2.Flags.argsLeft = []) →
    (∀ e ∈ fs, e.2.Flags.actual = [] ∧ e.2.Flags.argsLeft = []) →
    es = fs
  | [], [], _, _, _ => rfl
  | [], _ :: _, h, _, _ => by simp at h
  | _ :: _, [], h, _, _ => by simp at h
  | e :: es2, f :: fs2, h, hp, hq => by
    simp only [List.map_cons, List.cons.injEq] at h
    obtain ⟨h1, h3⟩ := h
    have he := hp e (List.mem_cons_self _ _)
    have hf := hq f (List.mem_cons_self _ _)
    have hef : e = f := by
      obtain ⟨e1, ec, en, ed, er, eform, eact, eargs⟩ := e
      obtain ⟨f1, fc, fn, fd, fr, fform, fact, fargs⟩ := f
      simp only [CmdCont.decl, Prod.mk.injEq] at h1
      obtain ⟨hx0, hx1, hx2, hx3, hx4, hx5⟩ := h1
      obtain ⟨ha, hb⟩ := he
      obtain ⟨hc2, hd2⟩ := hf
      simp only at ha hb hc2 hd2
      subst hx0 hx1 hx2 hx3 hx4 hx5 ha hb hc2 hd2
      rfl
    rw [hef,
      decls_inj es2 fs2 h3 (fun x hx => hp x (List.mem_cons_of_mem _ hx))
        (fun x hx => hq x (List.mem_cons_of_mem _ hx))]

/-! ### The claims -/

/-- Claim C1: if the registry has zero entries or the argument vector is
empty, `Path.Run` returns `(nil, ErrCmdUsage)`. The result — including
the unchanged registry state — is pinned for every registry and in
particular does not depend on any entry's run operation, so no command is
invoked. -/
theorem Run_empty_usage (p : Path) (args : List String)
    (h : p.entries = [] ∨ args = []) :
    p.Run args = (p, none, some ErrCmdUsage) := by
  rcases h with h | h
  · cases args with
    | nil => rfl
    | cons a rest => simp [Path.Run, h]
  · subst h; rfl

/-- Witness for C1: the empty registry with a non-empty argument vector. -/
theorem Run_empty_usage_witness :
    (NewPath.entries = [] ∨ (["x"] : List String) = [])
    ∧ NewPath.Run ["x"] = (NewPath, none, some ErrCmdUsage) :=
  ⟨Or.inl rfl, Run_empty_usage NewPath ["x"] (Or.inl rfl)⟩

/-- Claim C2: with a non-empty registry and a non-empty argument vector
whose first element is not a registered name, `Path.Run` returns
`(nil, ErrNoSuchCmd)` — and never the usage error. -/
theorem Run_unknown_noSuchCmd (p : Path) (a0 : String) (rest : List String)
    (hne : p.entries ≠ []) (hlook : p.lookup a0 = none) :
    p.Run (a0 :: rest) = (p, none, some ErrNoSuchCmd)
    ∧ (p.Run (a0 :: rest)).2.2 ≠ some ErrCmdUsage := by
  have hrun : p.Run (a0 :: rest) = (p, none, some ErrNoSuchCmd) := by
    simp only [Path.Run]
    rw [if_neg (by simpa [Nat.lt_one_iff, List.length_eq_zero] using hne), hlook]
  refine ⟨hrun, ?_⟩
  rw [hrun]
  simp [ErrNoSuchCmd, ErrCmdUsage]

/-- Witness for C2: one registered command `a`, dispatched as `b`. -/
theorem Run_unknown_noSuchCmd_witness :
    oneCmdPath.entries ≠ [] ∧ oneCmdPath.lookup "b" = none
    ∧ (oneCmdPath.Run ["b", "z"] = (oneCmdPath, none, some ErrNoSuchCmd)
       ∧ (oneCmdPath.Run ["b", "z"]).2.2 ≠ some ErrCmdUsage) :=
  ⟨by simp [oneCmdPath, Path.Add, NewPath], rfl,
   Run_unknown_noSuchCmd oneCmdPath "b" ["z"] (by simp [oneCmdPath, Path.Add, NewPath]) rfl⟩

/-- Claim C3 (amended): required-flag validation counts the flags the
entry's `FlagSet` records as explicitly set. For an entry whose `FlagSet`
has no recorded flags — as immediately after registration — a required
flag named by no command-line token counts as missing (first conjunct);
and a required boolean flag supplied with its default value `false` still
counts as set, so validation passes and the command runs (second
conjunct), while dispatching the bare name yields the missing-flags error
naming exactly `v`. The amendment restricts the "never mentioned counts
as missing" sentence to entries without leftover `FlagSet` state from an
earlier dispatch — see the counterexample for why the restriction is
needed. -/
theorem required_counts_explicit :
    (∀ (p : Path) (nm r : String) (cont : CmdCont) (toks : List String) (fs' : FlagSet),
        p.lookup nm = some cont →
        cont.Flags.actual = [] →
        r ∈ cont.RequiredFlags →
        (∀ t ∈ toks, flagNameOf t ≠ some r) →
        toks ≠ [] →
        cont.Flags.parseLoop toks = (fs', none) →
        ∃ keys, (p.Run (nm :: toks)).2.2 = some (Err.requiredFlagsNotSet keys) ∧ r ∈ keys)
    ∧ ∀ (f : List String → Option Err) (nm desc : String),
        (((NewPath.Add nm desc
            { Flags := [⟨"v", true, "false"⟩], Run := f } ["v"]).1).Run [nm]).2.2
          = some (Err.requiredFlagsNotSet ["v"])
        ∧ (((NewPath.Add nm desc
            { Flags := [⟨"v", true, "false"⟩], Run := f } ["v"]).1).Run [nm, "-v=false"]).2.2
          = f [] := by
  constructor
  · intro p nm r cont toks fs' hlook hfresh hreq hment htoks hparse
    have hns : fs'.isSet r = false := by
      by_contra hc
      have hset : ((cont.Flags.parseLoop toks).1).isSet r = true := by
        rw [hparse]
        simpa using hc
      rcases parseLoop_isSet cont.Flags toks r hset with hs | ⟨t, ht, hname⟩
      · rw [FlagSet.isSet, hfresh] at hs
        simp at hs
      · exact hment t ht hname
    have hmem : r ∈ missingOf cont.RequiredFlags fs' :=
      List.mem_filter.mpr ⟨List.mem_dedup.mpr hreq, by simp [hns]⟩
    have hmiss : missingOf cont.RequiredFlags fs' ≠ [] := by
      intro hm
      rw [hm] at hmem
      simp at hmem
    have hif : (if toks.isEmpty then (cont.Flags, none)
                else cont.Flags.parseLoop toks) = (fs', none) := by
      cases toks with
      | nil => exact absurd rfl htoks
      | cons a l => simpa using hparse
    refine ⟨missingOf cont.RequiredFlags fs', ?_, hmem⟩
    rw [Run_missing_branch p nm toks cont fs' hlook hif hmiss]
  · intro f nm desc
    have hlook : ((NewPath.Add nm desc
        { Flags := [⟨"v", true, "false"⟩], Run := f } ["v"]).1).lookup nm
        = some ((NewPath.Add nm desc
            { Flags := [⟨"v", true, "false"⟩], Run := f } ["v"]).2) := by
      simp [Path.Add, Path.lookup]
    constructor
    · rw [Run_matched _ nm [] _ hlook]
      rfl
    · rw [Run_matched _ nm ["-v=false"] _ hlook]
      rfl

/-- Counterexample for C3 as frozen: in `shipPath1` (the state left by an
earlier dispatch of `["ship", "-env=prod"]`) the entry still has required
flags `["env"]`, and dispatching it with only its name — no flag
mentioned at all — succeeds instead of returning the missing-required-flags
error: the entry's `flag.FlagSet` still records `env` as explicitly set
from the earlier call. -/
theorem required_counts_explicit_cex :
    (shipPath1.lookup "ship").map (fun c => c.RequiredFlags) = some ["env"]
    ∧ (∀ t ∈ (["ship"] : List String).tail, flagNameOf t ≠ some "env")
    ∧ (shipPath1.Run ["ship"]).2.2 = none :=
  ⟨rfl, by decide, rfl⟩

/-- Witness for C3: the fresh `verPath` (required `v`, unrelated flag `w`)
dispatched with `-w` only, plus the concrete bare-name and
default-value-supplied dispatches. -/
theorem required_counts_explicit_witness :
    verPath.lookup "ver" ≠ none
    ∧ (∃ keys, (verPath.Run ["ver", "-w"]).2.2 = some (Err.requiredFlagsNotSet keys)
         ∧ "v" ∈ keys)
    ∧ ((((NewPath.Add "x" "d"
          { Flags := [⟨"v", true, "false"⟩], Run := fun _ => none } ["v"]).1).Run
            ["x"]).2.2
        = some (Err.requiredFlagsNotSet ["v"])
       ∧ (((NewPath.Add "x" "d"
          { Flags := [⟨"v", true, "false"⟩], Run := fun _ => none } ["v"]).1).Run
            ["x", "-v=false"]).2.2
        = (fun _ => none : List String → Option Err) []) := by
  refine ⟨by simp [verPath, Path.Add, Path.lookup], ?_, ?_⟩
  · exact required_counts_explicit.1 verPath "ver" "v" _ ["-w"] _ rfl rfl
      (by decide) (by decide) (by decide) rfl
  · exact required_counts_explicit.2 (fun _ => none) "x" "d"

/-- Claim C4 (amended): when parsing succeeds and required flags remain
unset, `Path.Run` fails with a missing-required-flags error tagged with
the matched (non-nil) entry; the error carries the missing names in the
iteration order of the Go map built from the required-flags declaration —
an unspecified order, embedded here as declaration order with duplicates
removed — and NOT sorted, as the counterexample shows. -/
theorem Run_missing_flags_err (p : Path) (a0 : String) (rest : List String)
    (cont : CmdCont) (fs' : FlagSet)
    (hlook : p.lookup a0 = some cont)
    (hparse : (if rest.isEmpty then (cont.Flags, none)
               else cont.Flags.parseLoop rest) = (fs', none))
    (hmiss : missingOf cont.RequiredFlags fs' ≠ []) :
    p.Run (a0 :: rest) =
      ({ entries := setEntry p.entries a0 { cont with Flags := fs' } },
       some { cont with Flags := fs' },
       some (Err.requiredFlagsNotSet (missingOf cont.RequiredFlags fs'))) :=
  Run_missing_branch p a0 rest cont fs' hlook hparse hmiss

/-- Witness for C4 (amended): `reqBAPath` dispatched bare — the error is
tagged with the entry and carries exactly the computed missing set. -/
theorem Run_missing_flags_err_witness :
    missingOf ["b", "a"] { formal := [], actual := [], argsLeft := [] } ≠ []
    ∧ (reqBAPath.Run ["m"]).2.1 ≠ none
    ∧ (reqBAPath.Run ["m"]).2.2
        = some (Err.requiredFlagsNotSet
            (missingOf ["b", "a"] { formal := [], actual := [], argsLeft := [] })) := by
  have h := Run_missing_flags_err reqBAPath "m" [] _
    { formal := [], actual := [], argsLeft := [] } rfl rfl (by decide)
  refine ⟨by decide, ?_, ?_⟩
  · rw [h]
    simp
  · rw [h]

/-- Counterexample for C4 as frozen: required flags declared as
`["b", "a"]` produce the key list `["b", "a"]`, which is not sorted
(`["a", "b"]` would be); the code collects the Go map's keys without
sorting, so the error text is not deterministic across runs. -/
theorem Run_missing_keys_unsorted_cex :
    (reqBAPath.Run ["m"]).2.2 = some (Err.requiredFlagsNotSet ["b", "a"])
    ∧ ¬ List.Sorted (fun x y : String => strLe x y = true) ["b", "a"]
    ∧ List.Sorted (fun x y : String => strLe x y = true) ["a", "b"] :=
  ⟨rfl, by decide, by decide⟩

/-- Claim C5: when the matched entry passes parsing and required-flag
validation, `Path.Run` invokes the command's run operation on exactly the
adapter's leftover arguments (`fs'.argsLeft`, in original order) and
returns its result unwrapped and unaltered, paired with the matched
entry. The conclusion holds for every run operation, so the third
component is precisely the run operation's own value. -/
theorem Run_invokes_with_leftover (p : Path) (a0 : String) (rest : List String)
    (cont : CmdCont) (fs' : FlagSet)
    (hlook : p.lookup a0 = some cont)
    (hparse : (if rest.isEmpty then (cont.Flags, none)
               else cont.Flags.parseLoop rest) = (fs', none))
    (hmiss : missingOf cont.RequiredFlags fs' = []) :
    p.Run (a0 :: rest) =
      ({ entries := setEntry p.entries a0 { cont with Flags := fs' } },
       some { cont with Flags := fs' },
       cont.Cmd.Run fs'.argsLeft) := by
  rw [Run_matched p a0 rest cont hlook, hparse]
  dsimp only
  simp [hmiss]

/-- Witness for C5: the `hello` scenario of `TestCommandFunc` — the
command observes exactly `["world"]` and succeeds. -/
theorem Run_invokes_with_leftover_witness :
    missingOf [] { formal := [], actual := [], argsLeft := ["world"] } = []
    ∧ (helloPath.Run ["hello", "world"]).2.2 = none := by
  constructor
  · rfl
  · have h := Run_invokes_with_leftover helloPath "hello" ["world"] _
      { formal := [], actual := [], argsLeft := ["world"] } rfl rfl rfl
    rw [h]
    rfl

/-- Claim C6 (amended): a `Path.Run` outcome is a function of the full
registry state — registration data plus each entry's accumulated
`flag.FlagSet` parse state. Two registries with the same registration
data whose entries all have pristine `FlagSet` state (nothing recorded as
explicitly set, no stored leftover arguments) give identical outcomes on
every argument vector; the pristine-state condition cannot be dropped, as
the counterexample shows. -/
theorem Run_pure_on_fresh (p q : Path) (args : List String)
    (hdecls : p.decls = q.decls)
    (hp : ∀ e ∈ p.entries, e.2.Flags.actual = [] ∧ e.2.Flags.argsLeft = [])
    (hq : ∀ e ∈ q.entries, e.2.Flags.actual = [] ∧ e.2.Flags.argsLeft = []) :
    p.Run args = q.Run args := by
  have hent : p.entries = q.entries := decls_inj p.entries q.entries hdecls hp hq
  have hpq : p = q := by
    cases p
    cases q
    exact congrArg Path.mk hent
  rw [hpq]

/-- Witness for C6 (amended): two differently-built registries with the
same registration data (`shipPathB` overwrote an earlier `ship`
registration) and pristine parse state dispatch identically. -/
theorem Run_pure_on_fresh_witness :
    shipPath.decls = shipPathB.decls
    ∧ shipPath.Run ["ship"] = shipPathB.Run ["ship"] := by
  refine ⟨rfl, Run_pure_on_fresh shipPath shipPathB ["ship"] rfl ?_ ?_⟩
  · intro e he
    rw [List.mem_singleton.mp he]
    exact ⟨rfl, rfl⟩
  · intro e he
    rw [List.mem_singleton.mp he]
    exact ⟨rfl, rfl⟩

/-- Counterexample for C6 as frozen: `shipPath1` has the same registry
contents (names, descriptions, required flags, bound commands, declared
flags) as `shipPath`, yet dispatching `["ship"]` fails with the
missing-required-flags error on `shipPath` and succeeds on `shipPath1`:
the earlier `Dispatch(["ship", "-env=prod"])` call changed the outcome. -/
theorem Run_not_pure_cex :
    shipPath1.decls = shipPath.decls
    ∧ (shipPath.Run ["ship"]).2.2 = some (Err.requiredFlagsNotSet ["env"])
    ∧ (shipPath1.Run ["ship"]).2.2 = none :=
  ⟨rfl, rfl, rfl⟩

/-- Claim C7: a flag-parse error on a matched entry is returned as-is
together with the matched (non-nil) entry. The conclusion is pinned for
every required-flags list and every run operation of the entry, so
neither required-flag validation nor the run operation takes part in the
outcome. -/
theorem Run_flag_parse_error (p : Path) (a0 : String) (rest : List String)
    (cont : CmdCont) (fs' : FlagSet) (msg : String)
    (hrest : rest ≠ [])
    (hlook : p.lookup a0 = some cont)
    (hparse : cont.Flags.parseLoop rest = (fs', some msg)) :
    p.Run (a0 :: rest) =
      ({ entries := setEntry p.entries a0 { cont with Flags := fs' } },
       some { cont with Flags := fs' },
       some (Err.parseErr msg)) := by
  have hne : rest.isEmpty = false := by
    cases rest with
    | nil => exact absurd rfl hrest
    | cons a l => rfl
  rw [Run_matched p a0 rest cont hlook]
  simp [hne, hparse]

/-- Witness for C7: an undeclared flag `-bogus` on a registered command. -/
theorem Run_flag_parse_error_witness :
    (["-bogus"] : List String) ≠ []
    ∧ (oneCmdPath.Run ["a", "-bogus"]).2.2
        = some (Err.parseErr "flag provided but not defined: -bogus")
    ∧ (oneCmdPath.Run ["a", "-bogus"]).2.1 ≠ none := by
  have h := Run_flag_parse_error oneCmdPath "a" ["-bogus"] _
    { formal := [], actual := [], argsLeft := [] }
    "flag provided but not defined: -bogus" (by simp) rfl rfl
  refine ⟨by simp, ?_, ?_⟩
  · rw [h]
  · rw [h]
    simp

/-- Claim C8: registering an already-registered name silently replaces
the earlier entry — `Path.Add` has no error outcome at all — and both
lookup and dispatch resolve the name to the entry created by the second
registration. -/
theorem Add_last_write_wins (p : Path) (nm d1 d2 : String) (c1 c2 : Cmd)
    (r1 r2 : List String) :
    ((((p.Add nm d1 c1 r1).1).Add nm d2 c2 r2).1).lookup nm
      = some (((p.Add nm d1 c1 r1).1).Add nm d2 c2 r2).2
    ∧ (((((p.Add nm d1 c1 r1).1).Add nm d2 c2 r2).1).Run [nm]).2.1
      = some (((p.Add nm d1 c1 r1).1).Add nm d2 c2 r2).2 := by
  have hlook : ((((p.Add nm d1 c1 r1).1).Add nm d2 c2 r2).1).lookup nm
      = some (((p.Add nm d1 c1 r1).1).Add nm d2 c2 r2).2 := by
    simp [Path.Add, Path.lookup]
  refine ⟨hlook, ?_⟩
  rw [Run_entry _ nm [] _ hlook]
  rfl

/-- Claim C9: `CmdFunc` declares no flags and its run operation forwards
the positional-argument list verbatim to the wrapped function, returning
its error unchanged. -/
theorem CmdFunc_is_flagless_forwarder (f : List String → Option Err) (args : List String) :
    (CmdFunc f).Flags = [] ∧ (CmdFunc f).Run args = f args :=
  ⟨rfl, rfl⟩

/-- Claim C10: `Path.Run` never adds, removes, or replaces registrations:
the name-to-registration mapping (names, descriptions, required-flag
lists, bound commands, and declared flags) after any dispatch equals the
one before it; only the matched entry's mutable `FlagSet` parse state can
change. -/
theorem Run_preserves_decls (p : Path) (args : List String) :
    ((p.Run args).1).decls = p.decls := by
  cases args with
  | nil => rfl
  | cons a0 rest =>
    by_cases hlen : p.entries.length < 1
    · simp [Path.Run, hlen]
    · match hlook : p.lookup a0 with
      | none => simp [Path.Run, if_neg hlen, hlook]
      | some cont =>
        rw [Run_fst p a0 rest cont hlook]
        rcases Option.map_eq_some'.mp hlook with ⟨e0, hfind, he0⟩
        have hformal :
            ((if rest.isEmpty then (cont.Flags, none)
              else cont.Flags.parseLoop rest).1).formal = cont.Flags.formal := by
          split
          · rfl
          · exact parseLoop_formal _ _
        have hdecl :
            CmdCont.decl
              { cont with
                Flags := (if rest.isEmpty then (cont.Flags, none)
                          else cont.Flags.parseLoop rest).1 } = CmdCont.decl e0.2 := by
          rw [← he0] at hformal ⊢
          simp [CmdCont.decl]
          simpa using hformal
        exact setEntry_decls a0 _ p.entries e0 hfind hdecl

end Command
